import Mathlib

/-!
Verification of the translation-resolution engine of the Omutoloki-Wethu
repository (src/components/Translator.tsx).

The development shallowly embeds the translation-flow logic of the
`Translator` component: `handleTranslate` (the three-tier resolution
cascade), `fallbackSearch` (the fuzzy tier) and `fetchVault` (the sync
policy), together with the JavaScript string primitives they use.  The
React component state touched by these functions is carried explicitly
(`ComponentState`), asynchronous collaborators (Gemini synthesis, Supabase
upsert/select) are oracles supplied in the environment (`Env`, `SyncEnv`),
and the order of the observable actions of one `handleTranslate` run is
recorded as a list of events.  A run that lets a JavaScript `TypeError`
escape is an `Except.error`.
-/

namespace OmutolokiWethu

/-! ### JavaScript string primitives

The component manipulates strings with `trim()`, `toLowerCase()`,
`includes()` and `startsWith()`.  They are modelled executably on the
character list of the string (`toLowerCase` with the ASCII case mapping,
`trim` with the common whitespace characters). -/

/-- Whitespace for the model of `String.prototype.trim`. -/
def isJsWhitespace (c : Char) : Bool :=
  c = ' ' || c = '\t' || c = '\n' || c = '\r'

/-- Model of JavaScript `String.prototype.trim`: strip leading and trailing
whitespace. -/
def jsTrim (s : String) : String :=
  ⟨((s.data.dropWhile isJsWhitespace).reverse.dropWhile isJsWhitespace).reverse⟩

/-- Model of JavaScript `String.prototype.toLowerCase` (ASCII case mapping). -/
def jsToLower (s : String) : String :=
  ⟨s.data.map Char.toLower⟩

/-- Model of JavaScript `String.prototype.startsWith`. -/
def jsStartsWith (s pre : String) : Bool :=
  pre.data.isPrefixOf s.data

/-- Helper for `jsIncludes`: does the second list occur contiguously inside
the first? -/
def jsIncludesAux : List Char → List Char → Bool
  | _, [] => true
  | [], _ :: _ => false
  | a :: t, sub => sub.isPrefixOf (a :: t) || jsIncludesAux t sub

/-- Model of JavaScript `String.prototype.includes`: `jsIncludes s sub` is
true when `sub` occurs as a contiguous substring of `s`. -/
def jsIncludes (s sub : String) : Bool :=
  jsIncludesAux s.data sub.data

/-! ### Data model (src/types.ts) -/

/-- The `Language` enum of src/types.ts. -/
inductive Language where
  | english
  | oshikwanyama
  | oshidonga
deriving DecidableEq, Repr

/-- The `DictionaryEntry` interface of src/types.ts.  At the JavaScript
runtime any field of a row that arrived from JSON or from the database can
be `undefined`, which the fuzzy tier explicitly guards against with
optional chaining; the fields the engine reads are therefore modelled as
`Option`.  `created_at` is an ISO timestamp string. -/
structure DictionaryEntry where
  id : Option Nat := none
  oshikwanyama_word : Option String := none
  english_word : Option String := none
  omaludi_oitja : String := ""
  word_types : String := ""
  oshitya_metumbulo : String := ""
  word_in_phrase_sentence : String := ""
  is_verified : Option Bool := none
  created_at : Option String := none
  detected_dialect : Option String := none
  dialect_correction_note : Option String := none
deriving DecidableEq, Repr

/-- The column name `sourceCol` ranges over in `handleTranslate` line 98:
either `'english_word'` or `'oshikwanyama_word'`. -/
inductive Col where
  | english_word
  | oshikwanyama_word
deriving DecidableEq, Repr

/-- Dynamic field access `e[col]`. -/
def DictionaryEntry.getCol (e : DictionaryEntry) : Col → Option String
  | Col.english_word => e.english_word
  | Col.oshikwanyama_word => e.oshikwanyama_word

/-- Line 98: `sourceLang === Language.ENGLISH ? 'english_word' :
'oshikwanyama_word'`. -/
def sourceColFor (lang : Language) : Col :=
  if lang = Language.english then Col.english_word else Col.oshikwanyama_word

/-- The `lastSource` tag: `'vault' | 'ai' | 'fallback'`. -/
inductive Source where
  | vault
  | ai
  | fallback
deriving DecidableEq, Repr

/-- The JavaScript runtime error relevant to this development: the
`TypeError` thrown when a property of `undefined` is accessed. -/
inductive JsError where
  | typeError
deriving DecidableEq, Repr

/-- The slice of the React component state that the translation flow reads
and writes. -/
structure ComponentState where
  targetEntry : Option DictionaryEntry
  lastSource : Option Source
  vaultData : List DictionaryEntry
  errorStatus : Option String
  isTranslating : Bool
deriving DecidableEq, Repr

/-- Observable actions of one `handleTranslate` run, in program order.
`markTranslating` records `setIsTranslating` (the render shows the result
panel only while it is `false`); `synthCall` records the call to
`getAutonomousTranslation`; `upsertCall`/`upsertReturn` bracket the awaited
Supabase upsert (`upsertReturn` is the settling of the promise, fulfilled
or rejected); `cacheWrite` records the `localStorage` write of the new
vault snapshot; `setTarget`/`setSourceTag` record the result assignment. -/
inductive Event where
  | markTranslating (b : Bool)
  | synthCall (text : String) (lang : Language)
  | setTarget (e : Option DictionaryEntry)
  | setSourceTag (s : Option Source)
  | upsertCall (e : DictionaryEntry)
  | upsertReturn
  | cacheWrite (v : List DictionaryEntry)
deriving DecidableEq, Repr

/-- Outcome of the awaited Supabase upsert (lines 127-130): the promise
either resolves with a `{ data, error }` pair — `row` is the first element
of the returned row array, `none` when `data` is null — or rejects
(`thrown`), e.g. on a network failure. -/
inductive UpsertOutcome where
  | resolved (row : Option DictionaryEntry) (err : Bool)
  | thrown
deriving DecidableEq, Repr

/-- Inputs of one `handleTranslate` run: the component inputs (text,
language, connectivity, manual override, the signed-in user's id) and the
oracles for the two asynchronous collaborators.  `synthResult` is what
`getAutonomousTranslation` resolves to (it catches its own exceptions and
resolves to `null` on any failure, hence an `Option` and not an `Except`);
`upsertResult` is the outcome of the Supabase upsert; `now` is
`new Date().toISOString()`. -/
structure Env where
  sourceText : String
  sourceLang : Language
  isOnline : Bool
  forceOffline : Bool
  user : Option String
  synthResult : Option DictionaryEntry
  upsertResult : UpsertOutcome
  now : String
deriving Repr

/-! ### The resolution engine (src/components/Translator.tsx lines 91-171) -/

/-- Line 99: `vaultData.find(e => e[sourceCol].toLowerCase() === text)`.
The predicate reads `e[sourceCol]` without optional chaining, so an entry
whose source-language field is absent throws a `TypeError` before it can be
compared. -/
def exactFind (text : String) (col : Col) :
    List DictionaryEntry → Except JsError (Option DictionaryEntry)
  | [] => Except.ok none
  | e :: rest =>
      match e.getCol col with
      | none => Except.error JsError.typeError
      | some w => if jsToLower w = text then Except.ok (some e) else exactFind text col rest

/-- The fuzzy predicate of `fallbackSearch` (lines 159-162):
`e[col]?.toString().toLowerCase().includes(text) ||
text.includes(e[col]?.toString().toLowerCase() || '')`.  An absent field
makes the first disjunct `undefined` (falsy) and the second disjunct
`text.includes('')`. -/
def fuzzyMatches (text : String) (col : Col) (e : DictionaryEntry) : Bool :=
  (match e.getCol col with
   | some w => jsIncludes (jsToLower w) text
   | none => false) ||
  jsIncludes text
    (match e.getCol col with
     | some w => jsToLower w
     | none => "")

/-- Line 159: `vaultData.find(...)` with the fuzzy predicate — first match
wins. -/
def fallbackFind (text : String) (col : Col) (v : List DictionaryEntry) :
    Option DictionaryEntry :=
  v.find? (fuzzyMatches text col)

/-- Line 169: the miss message of `fallbackSearch`. -/
def fallbackMessage (forceOffline : Bool) : String :=
  if forceOffline then "Isolated Mode: No local matches found."
  else "Offline: No knowledge records."

/-- Line 147: the status set when the synthesis branch throws. -/
def cloudFailureMessage : String := "Cloud logic failed. Engaging Fallback..."

/-- `fallbackSearch` (lines 157-171) as a state transformer, also returning
the assignments it performs. -/
def applyFallback (text : String) (col : Col) (forceOffline : Bool)
    (s : ComponentState) : ComponentState × List Event :=
  match fallbackFind text col s.vaultData with
  | some fuzzy =>
      ({ s with targetEntry := some fuzzy, lastSource := some Source.fallback },
       [Event.setTarget (some fuzzy), Event.setSourceTag (some Source.fallback)])
  | none =>
      ({ s with targetEntry := none,
                errorStatus := some (fallbackMessage forceOffline) },
       [Event.setTarget none])

/-- Lines 120-124: `{ ...learnedEntry, is_verified: false, created_at:
new Date().toISOString() }`. -/
def stampEntry (now : String) (e : DictionaryEntry) : DictionaryEntry :=
  { e with is_verified := some false, created_at := some now }

/-- Lines 133 and 139: `[x, ...vaultData].slice(0, 100)`. -/
def sliceCap (e : DictionaryEntry) (v : List DictionaryEntry) :
    List DictionaryEntry :=
  (e :: v).take 100

/-- Line 126: `user && !user.id.startsWith('guest_')`. -/
def isNonGuest : Option String → Bool
  | none => false
  | some uid => !(jsStartsWith uid "guest_")

/-- `handleTranslate` (src/components/Translator.tsx lines 91-155).
Returns the updated component state and the ordered observable events of
the run, or `Except.error` when a `TypeError` escapes (the tier-1 lookup is
outside the `try` block).  The branches follow the source: empty trimmed
input returns at once (line 92); an exact local hit returns tagged `vault`
(lines 101-106); when `isOnline && !forceOffline`, synthesis is attempted —
on success the result is shown tagged `ai`, then for a non-guest user the
stamped entry is upserted and, only if the upsert resolves with a row and
no error, the returned row is prepended to the capped cache, while a guest
prepends the stamped entry directly; a null synthesis result or a rejected
await lands in the `catch`, which sets the cloud-failure status and runs
`fallbackSearch`; offline or force-offline goes straight to
`fallbackSearch` (lines 150-153). -/
def handleTranslate (env : Env) (s0 : ComponentState) :
    Except JsError (ComponentState × List Event) :=
  if jsTrim env.sourceText = "" then Except.ok (s0, []) else
  let s1 : ComponentState := { s0 with isTranslating := true, errorStatus := none }
  let text := jsToLower (jsTrim env.sourceText)
  let sourceCol := sourceColFor env.sourceLang
  match exactFind text sourceCol s0.vaultData with
  | Except.error err => Except.error err
  | Except.ok (some cached) =>
      Except.ok
        ({ s1 with targetEntry := some cached, lastSource := some Source.vault,
                   isTranslating := false },
         [Event.markTranslating true, Event.setTarget (some cached),
          Event.setSourceTag (some Source.vault), Event.markTranslating false])
  | Except.ok none =>
      if env.isOnline && !env.forceOffline then
        match env.synthResult with
        | some learnedEntry =>
            let s2 := { s1 with targetEntry := some learnedEntry,
                                lastSource := some Source.ai }
            let pre : List Event :=
              [Event.markTranslating true, Event.synthCall text env.sourceLang,
               Event.setTarget (some learnedEntry),
               Event.setSourceTag (some Source.ai)]
            let entryWithMetadata := stampEntry env.now learnedEntry
            if isNonGuest env.user then
              match env.upsertResult with
              | UpsertOutcome.resolved (some row) false =>
                  let updatedVault := sliceCap row s2.vaultData
                  Except.ok
                    ({ s2 with vaultData := updatedVault, isTranslating := false },
                     pre ++ [Event.upsertCall entryWithMetadata, Event.upsertReturn,
                             Event.cacheWrite updatedVault,
                             Event.markTranslating false])
              | UpsertOutcome.resolved _ _ =>
                  Except.ok
                    ({ s2 with isTranslating := false },
                     pre ++ [Event.upsertCall entryWithMetadata, Event.upsertReturn,
                             Event.markTranslating false])
              | UpsertOutcome.thrown =>
                  let s3 := { s2 with errorStatus := some cloudFailureMessage }
                  let fb := applyFallback text sourceCol env.forceOffline s3
                  Except.ok
                    ({ fb.1 with isTranslating := false },
                     pre ++ [Event.upsertCall entryWithMetadata, Event.upsertReturn]
                         ++ fb.2 ++ [Event.markTranslating false])
            else
              let guestVault := sliceCap entryWithMetadata s2.vaultData
              Except.ok
                ({ s2 with vaultData := guestVault, isTranslating := false },
                 pre ++ [Event.cacheWrite guestVault, Event.markTranslating false])
        | none =>
            let s2 := { s1 with errorStatus := some cloudFailureMessage }
            let fb := applyFallback text sourceCol env.forceOffline s2
            Except.ok
              ({ fb.1 with isTranslating := false },
               [Event.markTranslating true, Event.synthCall text env.sourceLang]
                 ++ fb.2 ++ [Event.markTranslating false])
      else
        let fb := applyFallback text sourceCol env.forceOffline s1
        Except.ok
          ({ fb.1 with isTranslating := false },
           [Event.markTranslating true] ++ fb.2 ++ [Event.markTranslating false])

/-! ### The sync policy (src/components/Translator.tsx lines 66-89) -/

/-- Inputs of one `fetchVault` run: connectivity, the manual override, the
persisted `localStorage` snapshot, and the remote read oracle (`none`
models both a caught exception and a `{ data: null }` response). -/
structure SyncEnv where
  isOnline : Bool
  forceOffline : Bool
  cachedSnapshot : Option (List DictionaryEntry)
  remote : Option (List DictionaryEntry)
deriving Repr

/-- `fetchVault` (lines 66-89): show the persisted snapshot at once, then,
if online and not forced offline, replace it with the full remote result
when the read succeeds — with no cap applied — and keep the local data
otherwise. -/
def fetchVault (env : SyncEnv) (vault0 : List DictionaryEntry) :
    List DictionaryEntry :=
  let v1 := match env.cachedSnapshot with
    | some c => c
    | none => vault0
  if env.isOnline && !env.forceOffline then
    match env.remote with
    | some data => data
    | none => v1
  else v1

/-! ### Run projections -/

/-- The final component state of a run, `none` when the run threw. -/
def runState (env : Env) (s : ComponentState) : Option ComponentState :=
  match handleTranslate env s with
  | Except.ok (s1, _) => some s1
  | Except.error _ => none

/-- The event list of a run, `none` when the run threw. -/
def runTrace (env : Env) (s : ComponentState) : Option (List Event) :=
  match handleTranslate env s with
  | Except.ok (_, tr) => some tr
  | Except.error _ => none

/-- The targetEntry a run leaves behind. -/
def runTarget (env : Env) (s : ComponentState) : Option (Option DictionaryEntry) :=
  (runState env s).map fun st => st.targetEntry

/-- The lastSource tag a run leaves behind. -/
def runTag (env : Env) (s : ComponentState) : Option (Option Source) :=
  (runState env s).map fun st => st.lastSource

/-- The local cache a run leaves behind. -/
def runVault (env : Env) (s : ComponentState) : Option (List DictionaryEntry) :=
  (runState env s).map fun st => st.vaultData

/-- The errorStatus a run leaves behind. -/
def runStatus (env : Env) (s : ComponentState) : Option (Option String) :=
  (runState env s).map fun st => st.errorStatus

deriving instance DecidableEq for Except

/-! ### Concrete data for witnesses and counterexamples -/

/-- The component state at first render: nothing resolved, empty cache. -/
def emptyState : ComponentState :=
  { targetEntry := none, lastSource := none, vaultData := [],
    errorStatus := none, isTranslating := false }

/-- The synthesized record of the spec's scenario (section 8). -/
def entryEvening : DictionaryEntry :=
  { english_word := some "evening", oshikwanyama_word := some "onguloshi",
    detected_dialect := some "oshikwanyama" }

/-- An entry whose English field is a proper substring of `"evening"`. -/
def entryEve : DictionaryEntry :=
  { english_word := some "eve", oshikwanyama_word := some "ongula" }

/-- A malformed cached row: the English field is absent. -/
def entryNoEnglish : DictionaryEntry :=
  { oshikwanyama_word := some "onguloshi" }

/-- A cached row whose English field is the empty string. -/
def entryEmptyEnglish : DictionaryEntry :=
  { english_word := some "", oshikwanyama_word := some "x" }

/-- The row the remote echoes back when `entryEvening` is upserted. -/
def rowEvening : DictionaryEntry :=
  { entryEvening with
    id := some 7,
    is_verified := some false,
    created_at := some "t0" }

/-- An online, authenticated request for `"evening"` whose synthesis and
upsert both succeed. -/
def baseEnv : Env :=
  { sourceText := "evening", sourceLang := Language.english, isOnline := true,
    forceOffline := false, user := some "admin1",
    synthResult := some entryEvening,
    upsertResult := UpsertOutcome.resolved (some rowEvening) false,
    now := "t0" }

/-- The request of `baseEnv` while physically offline. -/
def offlineEnv : Env :=
  { baseEnv with isOnline := false, synthResult := none }

/-- The request of `baseEnv` with untrimmed, mixed-case input. -/
def noisyInputEnv : Env :=
  { baseEnv with sourceText := " Evening " }

/-! ### Supporting lemmas -/

theorem jsToLower_empty : jsToLower "" = "" := by decide

theorem jsIncludes_empty_right (s : String) : jsIncludes s "" = true := by
  cases h : s.data with
  | nil => simp [jsIncludes, h, jsIncludesAux]
  | cons a t => simp [jsIncludes, h, jsIncludesAux]

/-- An entry whose searched field is absent or empty satisfies the fuzzy
predicate against every query: the second disjunct degenerates to
`text.includes('')`. -/
theorem fuzzyMatches_degenerate (text : String) (col : Col)
    (junk : DictionaryEntry)
    (hjunk : junk.getCol col = none ∨ junk.getCol col = some "") :
    fuzzyMatches text col junk = true := by
  rcases hjunk with h | h
  · simp [fuzzyMatches, h, jsIncludes_empty_right]
  · simp [fuzzyMatches, h, jsToLower_empty, jsIncludes_empty_right]

/-- When every entry carries the searched field, the tier-1 lookup cannot
throw. -/
theorem exactFind_isOk (text : String) (col : Col) (v : List DictionaryEntry)
    (hf : ∀ x ∈ v, (x.getCol col).isSome = true) :
    ∃ r, exactFind text col v = Except.ok r := by
  induction v with
  | nil => exact ⟨none, rfl⟩
  | cons e rest ih =>
      rcases Option.isSome_iff_exists.mp (hf e (List.mem_cons_self e rest)) with ⟨w, hw⟩
      by_cases hlow : jsToLower w = text
      · exact ⟨some e, by simp [exactFind, hw, hlow]⟩
      · rcases ih (fun x hx => hf x (List.mem_cons_of_mem e hx)) with ⟨r, hr⟩
        exact ⟨r, by simp [exactFind, hw, hlow, hr]⟩

/-- When the matching entry is unique, the tier-1 lookup returns exactly
it. -/
theorem exactFind_eq_of_unique (text : String) (col : Col)
    (v : List DictionaryEntry) (e : DictionaryEntry)
    (hf : ∀ x ∈ v, (x.getCol col).isSome = true)
    (he : e ∈ v)
    (hmatch : (e.getCol col).map jsToLower = some text)
    (huniq : ∀ x ∈ v, (x.getCol col).map jsToLower = some text → x = e) :
    exactFind text col v = Except.ok (some e) := by
  induction v with
  | nil => cases he
  | cons a rest ih =>
      rcases Option.isSome_iff_exists.mp (hf a (List.mem_cons_self a rest)) with ⟨wa, hwa⟩
      by_cases hl : jsToLower wa = text
      · have hae : a = e := huniq a (List.mem_cons_self a rest) (by simp [hwa, hl])
        rw [← hae]
        simp [exactFind, hwa, hl]
      · have he' : e ∈ rest := by
          rcases List.mem_cons.mp he with rfl | h
          · rw [hwa] at hmatch
            simp at hmatch
            exact absurd hmatch hl
          · exact h
        have hrec := ih (fun x hx => hf x (List.mem_cons_of_mem a hx)) he'
          (fun x hx hm => huniq x (List.mem_cons_of_mem a hx) hm)
        simp [exactFind, hwa, hl, hrec]

theorem take_append_take {α : Type} (a l : List α) (n : Nat) :
    (a ++ l.take n).take n = (a ++ l).take n := by
  rw [List.take_append_eq_append_take, List.take_append_eq_append_take,
      List.take_take, Nat.min_eq_left (Nat.sub_le n a.length)]

/-- Folding the capped prepend keeps the most recent entries, newest
first. -/
theorem foldl_sliceCap (es v : List DictionaryEntry) (hv : v.length ≤ 100) :
    es.foldl (fun acc e => sliceCap e acc) v = (es.reverse ++ v).take 100 := by
  induction es generalizing v with
  | nil => simp [List.take_of_length_le hv]
  | cons e es ih =>
      have h1 : (sliceCap e v).length ≤ 100 := by
        simp [sliceCap, List.length_take]
      rw [List.foldl_cons, ih (sliceCap e v) h1]
      show (es.reverse ++ (e :: v).take 100).take 100 =
        ((e :: es).reverse ++ v).take 100
      rw [take_append_take, List.reverse_cons, List.append_assoc]
      rfl

theorem find?_append_of_none {p : DictionaryEntry → Bool}
    (pre rest : List DictionaryEntry) (h : ∀ e ∈ pre, p e = false) :
    (pre ++ rest).find? p = rest.find? p := by
  induction pre with
  | nil => rfl
  | cons a t ih =>
      rw [List.cons_append, List.find?_cons_of_neg]
      · exact ih (fun e he => h e (List.mem_cons_of_mem a he))
      · simp [h a (List.mem_cons_self a t)]

/-! ### Branch lemmas for handleTranslate -/

/-- Tier-1 hit: an exact local match returns at once, tagged vault, with no
other effect. -/
theorem run_hit (env : Env) (s : ComponentState) (c : DictionaryEntry)
    (htrim : jsTrim env.sourceText ≠ "")
    (hexact : exactFind (jsToLower (jsTrim env.sourceText))
        (sourceColFor env.sourceLang) s.vaultData = Except.ok (some c)) :
    handleTranslate env s =
      Except.ok
        ({ s with targetEntry := some c, lastSource := some Source.vault,
                  errorStatus := none, isTranslating := false },
         [Event.markTranslating true, Event.setTarget (some c),
          Event.setSourceTag (some Source.vault), Event.markTranslating false]) := by
  simp [handleTranslate, htrim, hexact]

/-- Tier-2 success by a guest: the stamped entry goes to the capped local
cache, and no upsert event occurs. -/
theorem run_guest (env : Env) (s : ComponentState) (le : DictionaryEntry)
    (htrim : jsTrim env.sourceText ≠ "")
    (hexact : exactFind (jsToLower (jsTrim env.sourceText))
        (sourceColFor env.sourceLang) s.vaultData = Except.ok none)
    (hon : env.isOnline = true) (hfo : env.forceOffline = false)
    (hsynth : env.synthResult = some le)
    (hng : isNonGuest env.user = false) :
    handleTranslate env s =
      Except.ok
        ({ s with targetEntry := some le, lastSource := some Source.ai,
                  vaultData := sliceCap (stampEntry env.now le) s.vaultData,
                  errorStatus := none, isTranslating := false },
         [Event.markTranslating true,
          Event.synthCall (jsToLower (jsTrim env.sourceText)) env.sourceLang,
          Event.setTarget (some le), Event.setSourceTag (some Source.ai),
          Event.cacheWrite (sliceCap (stampEntry env.now le) s.vaultData),
          Event.markTranslating false]) := by
  simp [handleTranslate, htrim, hexact, hon, hfo, hsynth, hng]

/-- Tier-2 success by an authenticated user whose upsert resolves with a
row and no error: the returned row is prepended to the capped cache. -/
theorem run_upsert_row (env : Env) (s : ComponentState)
    (le row : DictionaryEntry)
    (htrim : jsTrim env.sourceText ≠ "")
    (hexact : exactFind (jsToLower (jsTrim env.sourceText))
        (sourceColFor env.sourceLang) s.vaultData = Except.ok none)
    (hon : env.isOnline = true) (hfo : env.forceOffline = false)
    (hsynth : env.synthResult = some le)
    (hng : isNonGuest env.user = true)
    (hup : env.upsertResult = UpsertOutcome.resolved (some row) false) :
    handleTranslate env s =
      Except.ok
        ({ s with targetEntry := some le, lastSource := some Source.ai,
                  vaultData := sliceCap row s.vaultData,
                  errorStatus := none, isTranslating := false },
         [Event.markTranslating true,
          Event.synthCall (jsToLower (jsTrim env.sourceText)) env.sourceLang,
          Event.setTarget (some le), Event.setSourceTag (some Source.ai),
          Event.upsertCall (stampEntry env.now le), Event.upsertReturn,
          Event.cacheWrite (sliceCap row s.vaultData),
          Event.markTranslating false]) := by
  simp [handleTranslate, htrim, hexact, hon, hfo, hsynth, hng, hup]

/-- Tier-2 success by an authenticated user whose upsert resolves without a
usable row (null data or an error object): the result stays tagged ai and
the cache is left untouched. -/
theorem run_upsert_no_row (env : Env) (s : ComponentState)
    (le : DictionaryEntry) (row : Option DictionaryEntry) (err : Bool)
    (htrim : jsTrim env.sourceText ≠ "")
    (hexact : exactFind (jsToLower (jsTrim env.sourceText))
        (sourceColFor env.sourceLang) s.vaultData = Except.ok none)
    (hon : env.isOnline = true) (hfo : env.forceOffline = false)
    (hsynth : env.synthResult = some le)
    (hng : isNonGuest env.user = true)
    (hup : env.upsertResult = UpsertOutcome.resolved row err)
    (hbad : row = none ∨ err = true) :
    handleTranslate env s =
      Except.ok
        ({ s with targetEntry := some le, lastSource := some Source.ai,
                  errorStatus := none, isTranslating := false },
         [Event.markTranslating true,
          Event.synthCall (jsToLower (jsTrim env.sourceText)) env.sourceLang,
          Event.setTarget (some le), Event.setSourceTag (some Source.ai),
          Event.upsertCall (stampEntry env.now le), Event.upsertReturn,
          Event.markTranslating false]) := by
  rcases hbad with rfl | rfl
  · cases err <;> simp [handleTranslate, htrim, hexact, hon, hfo, hsynth, hng, hup]
  · cases row with
    | none => simp [handleTranslate, htrim, hexact, hon, hfo, hsynth, hng, hup]
    | some r => simp [handleTranslate, htrim, hexact, hon, hfo, hsynth, hng, hup]

/-- Tier-2 success by an authenticated user whose awaited upsert rejects:
the rejection lands in the catch block, which sets the cloud-failure status
and runs the fuzzy fallback over the tier-2 result. -/
theorem run_upsert_thrown (env : Env) (s : ComponentState)
    (le : DictionaryEntry)
    (htrim : jsTrim env.sourceText ≠ "")
    (hexact : exactFind (jsToLower (jsTrim env.sourceText))
        (sourceColFor env.sourceLang) s.vaultData = Except.ok none)
    (hon : env.isOnline = true) (hfo : env.forceOffline = false)
    (hsynth : env.synthResult = some le)
    (hng : isNonGuest env.user = true)
    (hup : env.upsertResult = UpsertOutcome.thrown) :
    handleTranslate env s =
      Except.ok
        ({ (applyFallback (jsToLower (jsTrim env.sourceText))
              (sourceColFor env.sourceLang) env.forceOffline
              { s with targetEntry := some le, lastSource := some Source.ai,
                       errorStatus := some cloudFailureMessage,
                       isTranslating := true }).1 with isTranslating := false },
         ([Event.markTranslating true,
           Event.synthCall (jsToLower (jsTrim env.sourceText)) env.sourceLang,
           Event.setTarget (some le), Event.setSourceTag (some Source.ai),
           Event.upsertCall (stampEntry env.now le), Event.upsertReturn] ++
          (applyFallback (jsToLower (jsTrim env.sourceText))
              (sourceColFor env.sourceLang) env.forceOffline
              { s with targetEntry := some le, lastSource := some Source.ai,
                       errorStatus := some cloudFailureMessage,
                       isTranslating := true }).2 ++
          [Event.markTranslating false])) := by
  simp [handleTranslate, htrim, hexact, hon, hfo, hsynth, hng, hup]

/-- Synthesis attempted but null: the catch block sets the cloud-failure
status and runs the fuzzy fallback. -/
theorem run_synth_fail (env : Env) (s : ComponentState)
    (htrim : jsTrim env.sourceText ≠ "")
    (hexact : exactFind (jsToLower (jsTrim env.sourceText))
        (sourceColFor env.sourceLang) s.vaultData = Except.ok none)
    (hon : env.isOnline = true) (hfo : env.forceOffline = false)
    (hsynth : env.synthResult = none) :
    handleTranslate env s =
      Except.ok
        ({ (applyFallback (jsToLower (jsTrim env.sourceText))
              (sourceColFor env.sourceLang) env.forceOffline
              { s with errorStatus := some cloudFailureMessage,
                       isTranslating := true }).1 with isTranslating := false },
         ([Event.markTranslating true,
           Event.synthCall (jsToLower (jsTrim env.sourceText)) env.sourceLang] ++
          (applyFallback (jsToLower (jsTrim env.sourceText))
              (sourceColFor env.sourceLang) env.forceOffline
              { s with errorStatus := some cloudFailureMessage,
                       isTranslating := true }).2 ++
          [Event.markTranslating false])) := by
  simp [handleTranslate, htrim, hexact, hon, hfo, hsynth]

/-- Offline or force-offline: no synthesis, straight to the fuzzy
fallback. -/
theorem run_no_link (env : Env) (s : ComponentState)
    (htrim : jsTrim env.sourceText ≠ "")
    (hexact : exactFind (jsToLower (jsTrim env.sourceText))
        (sourceColFor env.sourceLang) s.vaultData = Except.ok none)
    (hlink : (env.isOnline && !env.forceOffline) = false) :
    handleTranslate env s =
      Except.ok
        ({ (applyFallback (jsToLower (jsTrim env.sourceText))
              (sourceColFor env.sourceLang) env.forceOffline
              { s with errorStatus := none, isTranslating := true }).1 with
            isTranslating := false },
         ([Event.markTranslating true] ++
          (applyFallback (jsToLower (jsTrim env.sourceText))
              (sourceColFor env.sourceLang) env.forceOffline
              { s with errorStatus := none, isTranslating := true }).2 ++
          [Event.markTranslating false])) := by
  simp [handleTranslate, htrim, hexact, hlink]

/-- The two outcomes of applyFallback. -/
theorem applyFallback_hit (text : String) (col : Col) (fo : Bool)
    (s : ComponentState) (f : DictionaryEntry)
    (h : fallbackFind text col s.vaultData = some f) :
    applyFallback text col fo s =
      ({ s with targetEntry := some f, lastSource := some Source.fallback },
       [Event.setTarget (some f), Event.setSourceTag (some Source.fallback)]) := by
  simp [applyFallback, h]

theorem applyFallback_miss (text : String) (col : Col) (fo : Bool)
    (s : ComponentState)
    (h : fallbackFind text col s.vaultData = none) :
    applyFallback text col fo s =
      ({ s with targetEntry := none,
                errorStatus := some (fallbackMessage fo) },
       [Event.setTarget none]) := by
  simp [applyFallback, h]

/-- fallbackSearch never touches the cache. -/
theorem applyFallback_vaultData (text : String) (col : Col) (fo : Bool)
    (s : ComponentState) :
    ((applyFallback text col fo s).1).vaultData = s.vaultData := by
  cases hfb : fallbackFind text col s.vaultData <;> simp [applyFallback, hfb]

/-! ### The claims -/

/-- Claim C3 (confirmed): over a cache in which every entry carries the
searched field (the field is non-optional in the declared interface) and
the matching entry is unique (the spec's per-direction uniqueness
invariant), a nonempty request whose normalized text equals a cached
entry's source-language field resolves to exactly that entry tagged vault,
leaves the cache untouched, and produces a trace with no synthesis call and
no remote call — for every connectivity, override, identity and oracle
state. -/
theorem C3_vault_hit_purity (env : Env) (s : ComponentState)
    (e : DictionaryEntry)
    (htrim : jsTrim env.sourceText ≠ "")
    (hf : ∀ x ∈ s.vaultData,
        (x.getCol (sourceColFor env.sourceLang)).isSome = true)
    (he : e ∈ s.vaultData)
    (hmatch : (e.getCol (sourceColFor env.sourceLang)).map jsToLower =
        some (jsToLower (jsTrim env.sourceText)))
    (huniq : ∀ x ∈ s.vaultData,
        (x.getCol (sourceColFor env.sourceLang)).map jsToLower =
          some (jsToLower (jsTrim env.sourceText)) → x = e) :
    runState env s =
      some { s with
             targetEntry := some e,
             lastSource := some Source.vault,
             errorStatus := none,
             isTranslating := false } ∧
    runTrace env s =
      some [Event.markTranslating true, Event.setTarget (some e),
            Event.setSourceTag (some Source.vault),
            Event.markTranslating false] := by
  have hrun := run_hit env s e htrim
    (exactFind_eq_of_unique _ _ _ e hf he hmatch huniq)
  constructor <;> simp [runState, runTrace, hrun]

/-- Claim C3, witness at the spec's scenario: untrimmed mixed-case input
`" Evening "` over a one-entry cache hits tier 1. -/
theorem C3_vault_hit_purity_witness :
    (jsTrim noisyInputEnv.sourceText ≠ "" ∧
     entryEvening ∈ [entryEvening] ∧
     (entryEvening.getCol (sourceColFor noisyInputEnv.sourceLang)).map jsToLower =
       some (jsToLower (jsTrim noisyInputEnv.sourceText))) ∧
    (runState noisyInputEnv { emptyState with vaultData := [entryEvening] } =
      some { emptyState with
             vaultData := [entryEvening],
             targetEntry := some entryEvening,
             lastSource := some Source.vault,
             errorStatus := none,
             isTranslating := false } ∧
     runTrace noisyInputEnv { emptyState with vaultData := [entryEvening] } =
      some [Event.markTranslating true, Event.setTarget (some entryEvening),
            Event.setSourceTag (some Source.vault),
            Event.markTranslating false]) :=
  ⟨⟨by decide, by decide, by decide⟩,
   C3_vault_hit_purity noisyInputEnv { emptyState with vaultData := [entryEvening] }
     entryEvening (by decide) (by decide) (by decide) (by decide) (by decide)⟩

/-- Claim C5 (corrected): the capped prepend does enforce the bound — any
sequence of prepends leaves the most recent entries, newest first, never
more than 100, and prepending 101 distinct entries leaves exactly the 100
most recent — but the claim is false of the remote refresh: fetchVault
replaces the snapshot with the full remote result without applying the
cap. -/
theorem C5_prepend_cap_amended (es v : List DictionaryEntry) (senv : SyncEnv)
    (d : List DictionaryEntry) (hv : v.length ≤ 100)
    (hon : senv.isOnline = true) (hfo : senv.forceOffline = false)
    (hremote : senv.remote = some d) :
    es.foldl (fun acc e => sliceCap e acc) v = (es.reverse ++ v).take 100 ∧
    (es.foldl (fun acc e => sliceCap e acc) v).length ≤ 100 ∧
    fetchVault senv v = d := by
  refine ⟨foldl_sliceCap es v hv, ?_, ?_⟩
  · rw [foldl_sliceCap es v hv]
    simp [List.length_take]
  · simp [fetchVault, hon, hfo, hremote]

/-- A remote snapshot of 101 rows. -/
def bigRemote : List DictionaryEntry :=
  (List.range 101).map fun n => { id := some n }

/-- A sync environment that refreshes from `bigRemote`. -/
def bigSyncEnv : SyncEnv :=
  { isOnline := true, forceOffline := false, cachedSnapshot := none,
    remote := some bigRemote }

/-- Claim C5, counterexample: a successful remote refresh installs all 101
remote rows, so the cache exceeds the 100-entry cap right after a
cache-mutating operation, contradicting the claim that every
cache-mutating operation — including replacing the snapshot from a remote
refresh — leaves at most 100 entries. -/
theorem C5_refresh_exceeds_cap :
    (fetchVault bigSyncEnv []).length = 101 := by
  simp [fetchVault, bigSyncEnv, bigRemote]

/-- Claim C5, witness: starting from an empty cache, prepending the same
101 distinct entries one at a time leaves exactly the 100 most recent,
newest first, and the bound holds. -/
theorem C5_prepend_cap_witness :
    (([] : List DictionaryEntry).length ≤ 100 ∧ bigSyncEnv.isOnline = true ∧
     bigSyncEnv.forceOffline = false ∧ bigSyncEnv.remote = some bigRemote) ∧
    (bigRemote.foldl (fun acc e => sliceCap e acc) [] =
       (bigRemote.reverse ++ []).take 100 ∧
     (bigRemote.foldl (fun acc e => sliceCap e acc) []).length ≤ 100 ∧
     fetchVault bigSyncEnv [] = bigRemote) :=
  ⟨⟨by decide, rfl, rfl, rfl⟩,
   C5_prepend_cap_amended bigRemote [] bigSyncEnv bigRemote (by decide) rfl rfl rfl⟩

/-- Claim C6 (confirmed): a tier-2 success under a guest id (an id starting
with the guest prefix) prepends the stamped entry to the capped local cache
and never invokes the remote upsert — the trace holds the synthesis call,
the result assignments and the local cache write, and nothing else; the
final state differs from the initial one only in the result fields and the
cache. -/
theorem C6_guest_isolation (env : Env) (s : ComponentState)
    (le : DictionaryEntry) (uid : String)
    (htrim : jsTrim env.sourceText ≠ "")
    (hexact : exactFind (jsToLower (jsTrim env.sourceText))
        (sourceColFor env.sourceLang) s.vaultData = Except.ok none)
    (hon : env.isOnline = true) (hfo : env.forceOffline = false)
    (hsynth : env.synthResult = some le)
    (huser : env.user = some uid)
    (hguest : jsStartsWith uid "guest_" = true) :
    runState env s =
      some { s with
             targetEntry := some le,
             lastSource := some Source.ai,
             vaultData := sliceCap (stampEntry env.now le) s.vaultData,
             errorStatus := none,
             isTranslating := false } ∧
    runTrace env s =
      some [Event.markTranslating true,
            Event.synthCall (jsToLower (jsTrim env.sourceText)) env.sourceLang,
            Event.setTarget (some le), Event.setSourceTag (some Source.ai),
            Event.cacheWrite (sliceCap (stampEntry env.now le) s.vaultData),
            Event.markTranslating false] := by
  have hng : isNonGuest env.user = false := by
    simp [isNonGuest, huser, hguest]
  have hrun := run_guest env s le htrim hexact hon hfo hsynth hng
  constructor <;> simp [runState, runTrace, hrun]

/-- A request identical to baseEnv but issued from a guest session. -/
def guestEnv : Env := { baseEnv with user := some "guest_abc123" }

/-- Claim C6, witness: the guest scenario over an empty cache. -/
theorem C6_guest_isolation_witness :
    (jsTrim guestEnv.sourceText ≠ "" ∧
     exactFind (jsToLower (jsTrim guestEnv.sourceText))
       (sourceColFor guestEnv.sourceLang) emptyState.vaultData = Except.ok none ∧
     guestEnv.user = some "guest_abc123" ∧
     jsStartsWith "guest_abc123" "guest_" = true) ∧
    (runState guestEnv emptyState =
      some { emptyState with
             targetEntry := some entryEvening,
             lastSource := some Source.ai,
             vaultData := sliceCap (stampEntry guestEnv.now entryEvening)
               emptyState.vaultData,
             errorStatus := none,
             isTranslating := false } ∧
     runTrace guestEnv emptyState =
      some [Event.markTranslating true,
            Event.synthCall (jsToLower (jsTrim guestEnv.sourceText))
              guestEnv.sourceLang,
            Event.setTarget (some entryEvening),
            Event.setSourceTag (some Source.ai),
            Event.cacheWrite (sliceCap (stampEntry guestEnv.now entryEvening)
              emptyState.vaultData),
            Event.markTranslating false]) :=
  ⟨⟨by decide, by decide, rfl, by decide⟩,
   C6_guest_isolation guestEnv emptyState entryEvening "guest_abc123"
     (by decide) (by decide) rfl rfl rfl rfl (by decide)⟩

/-- Claim C8 (corrected): when every cached entry carries the
source-language field — the declared type of the interface — every run
returns a state without any escaping exception; but the claim's inclusion
of entries lacking the field is false: the tier-1 lookup reads the field
without optional chaining and throws a TypeError that escapes (only the
fuzzy tier guards against a missing field). -/
theorem C8_no_escape_amended (env : Env) (s : ComponentState)
    (hf : ∀ x ∈ s.vaultData,
        (x.getCol (sourceColFor env.sourceLang)).isSome = true) :
    (runState env s).isSome = true := by
  by_cases htrim : jsTrim env.sourceText = ""
  · simp [runState, handleTranslate, htrim]
  · rcases exactFind_isOk (jsToLower (jsTrim env.sourceText))
        (sourceColFor env.sourceLang) s.vaultData hf with ⟨r, hr⟩
    cases r with
    | some c => simp [runState, run_hit env s c htrim hr]
    | none =>
        by_cases hlink : (env.isOnline && !env.forceOffline) = true
        · have hon : env.isOnline = true := (Bool.and_eq_true_iff.mp hlink).1
          have hfo : env.forceOffline = false := by
            have h2 := (Bool.and_eq_true_iff.mp hlink).2
            simpa using h2
          cases hsy : env.synthResult with
          | none => simp [runState, run_synth_fail env s htrim hr hon hfo hsy]
          | some le =>
              cases hng : isNonGuest env.user with
              | false => simp [runState, run_guest env s le htrim hr hon hfo hsy hng]
              | true =>
                  cases hup : env.upsertResult with
                  | thrown =>
                      simp [runState,
                        run_upsert_thrown env s le htrim hr hon hfo hsy hng hup]
                  | resolved row err =>
                      cases row with
                      | some rr =>
                          cases err with
                          | false =>
                              simp [runState,
                                run_upsert_row env s le rr htrim hr hon hfo hsy hng hup]
                          | true =>
                              simp [runState,
                                run_upsert_no_row env s le (some rr) true htrim hr
                                  hon hfo hsy hng hup (Or.inr rfl)]
                      | none =>
                          simp [runState,
                            run_upsert_no_row env s le none err htrim hr
                              hon hfo hsy hng hup (Or.inl rfl)]
        · have hlink' : (env.isOnline && !env.forceOffline) = false := by
            simpa using hlink
          simp [runState, run_no_link env s htrim hr hlink']

/-- The baseEnv request asking for a word nothing matches. -/
def helloEnv : Env := { baseEnv with sourceText := "hello" }

/-- Claim C8, counterexample: with a cached row whose English field is
absent, the tier-1 lookup of an English request reads
`e['english_word'].toLowerCase()` on undefined and the TypeError escapes
the engine, contradicting the claim that no path throws even when a cached
entry lacks the source-language field. -/
theorem C8_missing_field_throws :
    handleTranslate helloEnv { emptyState with vaultData := [entryNoEnglish] } =
      Except.error JsError.typeError := by decide

/-- Claim C8, witness: a request over a well-formed (here empty) cache
returns without an exception. -/
theorem C8_no_escape_witness :
    (∀ x ∈ ([] : List DictionaryEntry),
        (x.getCol (sourceColFor helloEnv.sourceLang)).isSome = true) ∧
    (runState helloEnv emptyState).isSome = true :=
  ⟨by decide, C8_no_escape_amended helloEnv emptyState (by decide)⟩

/-- Claim C10 (confirmed): a cached entry whose source-language field is
absent or empty satisfies the fuzzy predicate against every nonempty query
(the containment test degenerates to checking that the query contains the
empty string), so tier 3 over any cache containing such an entry returns a
match, and when every entry before it fails the predicate — in particular
when it precedes every genuine match — the degenerate entry itself is
returned (first match wins). -/
theorem C10_degenerate_entry_matches (text : String) (col : Col)
    (junk : DictionaryEntry)
    (_htext : text ≠ "")
    (hjunk : junk.getCol col = none ∨ junk.getCol col = some "") :
    (∀ v, junk ∈ v → (fallbackFind text col v).isSome = true) ∧
    (∀ pre rest, (∀ e ∈ pre, fuzzyMatches text col e = false) →
      fallbackFind text col (pre ++ junk :: rest) = some junk) := by
  have hj := fuzzyMatches_degenerate text col junk hjunk
  constructor
  · intro v hv
    simp only [fallbackFind, List.find?_isSome]
    exact ⟨junk, hv, hj⟩
  · intro pre rest hpre
    unfold fallbackFind
    rw [find?_append_of_none pre (junk :: rest) hpre,
        List.find?_cons_of_pos _ hj]

/-- Claim C10, witness: a row with an absent English field matches the
query "evening" and, placed ahead of the genuine entry, is returned instead
of it. -/
theorem C10_degenerate_entry_witness :
    (("evening" : String) ≠ "" ∧
     (entryNoEnglish.getCol Col.english_word = none ∨
      entryNoEnglish.getCol Col.english_word = some "")) ∧
    (fallbackFind "evening" Col.english_word [entryNoEnglish]).isSome = true ∧
    fallbackFind "evening" Col.english_word
      ([] ++ entryNoEnglish :: [entryEvening]) = some entryNoEnglish :=
  ⟨⟨by decide, Or.inl rfl⟩,
   (C10_degenerate_entry_matches "evening" Col.english_word entryNoEnglish
     (by decide) (Or.inl rfl)).1 [entryNoEnglish] (by decide),
   (C10_degenerate_entry_matches "evening" Col.english_word entryNoEnglish
     (by decide) (Or.inl rfl)).2 [] [entryEvening] (by decide)⟩

/-- The baseEnv request whose upsert resolves with no row and an error. -/
def upsertErrorEnv : Env :=
  { baseEnv with upsertResult := UpsertOutcome.resolved none true }

/-- The baseEnv request whose awaited upsert rejects. -/
def upsertThrowEnv : Env :=
  { baseEnv with upsertResult := UpsertOutcome.thrown }

/-- The baseEnv request whose online synthesis resolves to null. -/
def synthFailEnv : Env := { baseEnv with synthResult := none }

/-- A component state caching only the near-match entry 'eve'. -/
def eveState : ComponentState := { emptyState with vaultData := [entryEve] }

/-- Claim C1 (corrected): on a tier-2 success the freshly synthesized entry
is stamped is_verified=false and created_at=now; a guest run prepends that
stamped entry to the capped cache unconditionally, but an authenticated run
mutates the cache only when the upsert resolves with a row and no error —
and then it prepends the row echoed by the remote, not the locally stamped
object; when the upsert reports an error, returns no row, or rejects, the
cache is left unchanged. -/
theorem C1_writethrough_amended (env : Env) (s : ComponentState)
    (le : DictionaryEntry)
    (htrim : jsTrim env.sourceText ≠ "")
    (hexact : exactFind (jsToLower (jsTrim env.sourceText))
        (sourceColFor env.sourceLang) s.vaultData = Except.ok none)
    (hon : env.isOnline = true) (hfo : env.forceOffline = false)
    (hsynth : env.synthResult = some le) :
    (isNonGuest env.user = false →
      runVault env s = some (sliceCap (stampEntry env.now le) s.vaultData)) ∧
    (isNonGuest env.user = true →
      runVault env s = some
        (match env.upsertResult with
         | UpsertOutcome.resolved (some row) false => sliceCap row s.vaultData
         | _ => s.vaultData)) := by
  constructor
  · intro hng
    simp [runVault, runState, run_guest env s le htrim hexact hon hfo hsynth hng]
  · intro hng
    cases hup : env.upsertResult with
    | resolved row err =>
        cases row with
        | some rr =>
            cases err with
            | false =>
                simp [runVault, runState,
                  run_upsert_row env s le rr htrim hexact hon hfo hsynth hng hup]
            | true =>
                simp [runVault, runState,
                  run_upsert_no_row env s le (some rr) true htrim hexact
                    hon hfo hsynth hng hup (Or.inr rfl)]
        | none =>
            simp [runVault, runState,
              run_upsert_no_row env s le none err htrim hexact
                hon hfo hsynth hng hup (Or.inl rfl)]
    | thrown =>
        simp [runVault, runState,
          run_upsert_thrown env s le htrim hexact hon hfo hsynth hng hup,
          applyFallback_vaultData]

/-- Claim C1, counterexample: an authenticated tier-2 success for 'evening'
whose upsert resolves with an error object leaves the cache empty — the
stamped entry is not prepended, contradicting the claim that the prepend
happens regardless of whether the upsert succeeds, fails, or returns no
row. -/
theorem C1_upsert_failure_skips_cache :
    runState upsertErrorEnv emptyState =
      some { targetEntry := some entryEvening, lastSource := some Source.ai,
             vaultData := [], errorStatus := none,
             isTranslating := false } := by decide

/-- Claim C1, witness: the amended write-through at the successful
scenario — for the guest the stamped entry, for the authenticated user the
remote-echoed row. -/
theorem C1_writethrough_witness :
    (jsTrim baseEnv.sourceText ≠ "" ∧
     exactFind (jsToLower (jsTrim baseEnv.sourceText))
       (sourceColFor baseEnv.sourceLang) emptyState.vaultData =
         Except.ok none ∧
     baseEnv.isOnline = true ∧ baseEnv.forceOffline = false ∧
     baseEnv.synthResult = some entryEvening) ∧
    ((isNonGuest baseEnv.user = false →
       runVault baseEnv emptyState =
         some (sliceCap (stampEntry baseEnv.now entryEvening)
           emptyState.vaultData)) ∧
     (isNonGuest baseEnv.user = true →
       runVault baseEnv emptyState =
         some (sliceCap rowEvening emptyState.vaultData))) :=
  ⟨⟨by decide, by decide, rfl, rfl, rfl⟩,
   C1_writethrough_amended baseEnv emptyState entryEvening
     (by decide) (by decide) rfl rfl rfl⟩

/-- Claim C2 (corrected): an upsert failure reported through the resolved
result object (an error flag or a missing row) indeed never changes the
outcome — the call still ends with the synthesized entry tagged ai and no
error status, and the fallback is not run; but an upsert whose awaited
promise rejects is caught by the same handler as a synthesis failure: the
cloud-failure status is set and the fuzzy fallback runs, overwriting the ai
outcome with the fuzzy match or a miss report. -/
theorem C2_upsert_failure_amended (env : Env) (s : ComponentState)
    (le : DictionaryEntry)
    (htrim : jsTrim env.sourceText ≠ "")
    (hexact : exactFind (jsToLower (jsTrim env.sourceText))
        (sourceColFor env.sourceLang) s.vaultData = Except.ok none)
    (hon : env.isOnline = true) (hfo : env.forceOffline = false)
    (hsynth : env.synthResult = some le)
    (hng : isNonGuest env.user = true) :
    (env.upsertResult ≠ UpsertOutcome.thrown →
      runTarget env s = some (some le) ∧
      runTag env s = some (some Source.ai) ∧
      runStatus env s = some none) ∧
    (env.upsertResult = UpsertOutcome.thrown →
      runTarget env s =
        some (fallbackFind (jsToLower (jsTrim env.sourceText))
          (sourceColFor env.sourceLang) s.vaultData) ∧
      (fallbackFind (jsToLower (jsTrim env.sourceText))
          (sourceColFor env.sourceLang) s.vaultData ≠ none →
        runTag env s = some (some Source.fallback) ∧
        runStatus env s = some (some cloudFailureMessage)) ∧
      (fallbackFind (jsToLower (jsTrim env.sourceText))
          (sourceColFor env.sourceLang) s.vaultData = none →
        runStatus env s =
          some (some (fallbackMessage env.forceOffline)))) := by
  constructor
  · intro hnt
    cases hup : env.upsertResult with
    | thrown => exact absurd hup hnt
    | resolved row err =>
        cases row with
        | some rr =>
            cases err with
            | false =>
                refine ⟨?_, ?_, ?_⟩ <;>
                  simp [runTarget, runTag, runStatus, runState,
                    run_upsert_row env s le rr htrim hexact hon hfo hsynth hng hup]
            | true =>
                refine ⟨?_, ?_, ?_⟩ <;>
                  simp [runTarget, runTag, runStatus, runState,
                    run_upsert_no_row env s le (some rr) true htrim hexact
                      hon hfo hsynth hng hup (Or.inr rfl)]
        | none =>
            refine ⟨?_, ?_, ?_⟩ <;>
              simp [runTarget, runTag, runStatus, runState,
                run_upsert_no_row env s le none err htrim hexact
                  hon hfo hsynth hng hup (Or.inl rfl)]
  · intro hup
    have hrun := run_upsert_thrown env s le htrim hexact hon hfo hsynth hng hup
    cases hfb : fallbackFind (jsToLower (jsTrim env.sourceText))
        (sourceColFor env.sourceLang) s.vaultData with
    | some f =>
        rw [applyFallback_hit _ _ _ _ f (by simpa using hfb)] at hrun
        refine ⟨?_, fun _ => ⟨?_, ?_⟩, fun hc => by simp at hc⟩
        · simp [runTarget, runState, hrun]
        · simp [runTag, runState, hrun]
        · simp [runStatus, runState, hrun]
    | none =>
        rw [applyFallback_miss _ _ _ _ (by simpa using hfb)] at hrun
        refine ⟨?_, fun hne => absurd rfl hne, fun _ => ?_⟩
        · simp [runTarget, runState, hrun]
        · simp [runStatus, runState, hrun]

/-- Claim C2, counterexample: authenticated synthesis of 'evening' succeeds
but the awaited upsert rejects; the engine does not keep the ai result — it
sets the cloud-failure status and the fuzzy fallback overwrites the result
with the cached near-match 'eve', tagged fallback. -/
theorem C2_upsert_rejection_triggers_fallback :
    runState upsertThrowEnv eveState =
      some { targetEntry := some entryEve, lastSource := some Source.fallback,
             vaultData := [entryEve], errorStatus := some cloudFailureMessage,
             isTranslating := false } := by decide

/-- Claim C2, witness: with the upsert resolving to an error object the
outcome stays the ai-tagged synthesized entry with no error status. -/
theorem C2_upsert_failure_witness :
    (jsTrim upsertErrorEnv.sourceText ≠ "" ∧
     isNonGuest upsertErrorEnv.user = true ∧
     upsertErrorEnv.upsertResult ≠ UpsertOutcome.thrown) ∧
    (runTarget upsertErrorEnv emptyState = some (some entryEvening) ∧
     runTag upsertErrorEnv emptyState = some (some Source.ai) ∧
     runStatus upsertErrorEnv emptyState = some none) :=
  ⟨⟨by decide, by decide, by decide⟩,
   (C2_upsert_failure_amended upsertErrorEnv emptyState entryEvening
     (by decide) (by decide) rfl rfl rfl (by decide)).1 (by decide)⟩

/-- Claim C4 (confirmed): for a nonempty trimmed input over a cache whose
entries all carry the searched field, the synthesis client is called
exactly when the exact local lookup misses and the link is active (online
with the manual override unset); with the link inactive the run performs no
synthesis and its outcome is the fuzzy fallback result — the matched entry
tagged fallback when a substring match exists, the miss status otherwise. -/
theorem C4_synthesis_gating (env : Env) (s : ComponentState)
    (htrim : jsTrim env.sourceText ≠ "")
    (hf : ∀ x ∈ s.vaultData,
        (x.getCol (sourceColFor env.sourceLang)).isSome = true) :
    ((Event.synthCall (jsToLower (jsTrim env.sourceText)) env.sourceLang ∈
        (runTrace env s).getD []) ↔
      (exactFind (jsToLower (jsTrim env.sourceText))
          (sourceColFor env.sourceLang) s.vaultData = Except.ok none ∧
       env.isOnline = true ∧ env.forceOffline = false)) ∧
    ((env.isOnline && !env.forceOffline) = false →
      exactFind (jsToLower (jsTrim env.sourceText))
          (sourceColFor env.sourceLang) s.vaultData = Except.ok none →
      runTarget env s =
        some (fallbackFind (jsToLower (jsTrim env.sourceText))
          (sourceColFor env.sourceLang) s.vaultData) ∧
      (fallbackFind (jsToLower (jsTrim env.sourceText))
          (sourceColFor env.sourceLang) s.vaultData ≠ none →
        runTag env s = some (some Source.fallback)) ∧
      (fallbackFind (jsToLower (jsTrim env.sourceText))
          (sourceColFor env.sourceLang) s.vaultData = none →
        runStatus env s =
          some (some (fallbackMessage env.forceOffline)))) := by
  rcases exactFind_isOk (jsToLower (jsTrim env.sourceText))
      (sourceColFor env.sourceLang) s.vaultData hf with ⟨r, hr⟩
  cases r with
  | some c =>
      have hrun := run_hit env s c htrim hr
      constructor
      · apply iff_of_false
        · simp [runTrace, hrun]
        · rintro ⟨hnone, -, -⟩
          rw [hr] at hnone
          simp at hnone
      · intro _ hnone
        rw [hr] at hnone
        simp at hnone
  | none =>
      by_cases hlink : (env.isOnline && !env.forceOffline) = true
      · have hon : env.isOnline = true := (Bool.and_eq_true_iff.mp hlink).1
        have hfo : env.forceOffline = false := by
          have h2 := (Bool.and_eq_true_iff.mp hlink).2
          simpa using h2
        constructor
        · refine iff_of_true ?_ ⟨hr, hon, hfo⟩
          cases hsy : env.synthResult with
          | none => simp [runTrace, run_synth_fail env s htrim hr hon hfo hsy]
          | some le =>
              cases hng : isNonGuest env.user with
              | false =>
                  simp [runTrace, run_guest env s le htrim hr hon hfo hsy hng]
              | true =>
                  cases hup : env.upsertResult with
                  | thrown =>
                      simp [runTrace,
                        run_upsert_thrown env s le htrim hr hon hfo hsy hng hup]
                  | resolved row err =>
                      cases row with
                      | some rr =>
                          cases err with
                          | false =>
                              simp [runTrace,
                                run_upsert_row env s le rr htrim hr hon hfo hsy hng hup]
                          | true =>
                              simp [runTrace,
                                run_upsert_no_row env s le (some rr) true htrim hr
                                  hon hfo hsy hng hup (Or.inr rfl)]
                      | none =>
                          simp [runTrace,
                            run_upsert_no_row env s le none err htrim hr
                              hon hfo hsy hng hup (Or.inl rfl)]
        · intro h2 _
          rw [hlink] at h2
          simp at h2
      · have hlink' : (env.isOnline && !env.forceOffline) = false := by
          simpa using hlink
        have hrun := run_no_link env s htrim hr hlink'
        have hoff : ¬(env.isOnline = true ∧ env.forceOffline = false) := by
          rintro ⟨h1, h2⟩
          rw [h1, h2] at hlink'
          simp at hlink'
        cases hfb : fallbackFind (jsToLower (jsTrim env.sourceText))
            (sourceColFor env.sourceLang) s.vaultData with
        | some f =>
            rw [applyFallback_hit _ _ _ _ f (by simpa using hfb)] at hrun
            constructor
            · apply iff_of_false
              · simp [runTrace, hrun]
              · rintro ⟨-, hon, hfo⟩
                exact hoff ⟨hon, hfo⟩
            · intro _ _
              refine ⟨?_, fun _ => ?_, fun hc => by simp at hc⟩
              · simp [runTarget, runState, hrun]
              · simp [runTag, runState, hrun]
        | none =>
            rw [applyFallback_miss _ _ _ _ (by simpa using hfb)] at hrun
            constructor
            · apply iff_of_false
              · simp [runTrace, hrun]
              · rintro ⟨-, hon, hfo⟩
                exact hoff ⟨hon, hfo⟩
            · intro _ _
              refine ⟨?_, fun hne => absurd rfl hne, fun _ => ?_⟩
              · simp [runTarget, runState, hrun]
              · simp [runStatus, runState, hrun]

/-- Claim C4, witness: an offline request over the near-match cache — no
synthesis call, fallback entry returned tagged fallback. -/
theorem C4_synthesis_gating_witness :
    (jsTrim offlineEnv.sourceText ≠ "" ∧
     ∀ x ∈ eveState.vaultData,
       (x.getCol (sourceColFor offlineEnv.sourceLang)).isSome = true) ∧
    (((Event.synthCall (jsToLower (jsTrim offlineEnv.sourceText))
          offlineEnv.sourceLang ∈ (runTrace offlineEnv eveState).getD []) ↔
       (exactFind (jsToLower (jsTrim offlineEnv.sourceText))
           (sourceColFor offlineEnv.sourceLang) eveState.vaultData =
             Except.ok none ∧
        offlineEnv.isOnline = true ∧ offlineEnv.forceOffline = false)) ∧
     ((offlineEnv.isOnline && !offlineEnv.forceOffline) = false →
       exactFind (jsToLower (jsTrim offlineEnv.sourceText))
           (sourceColFor offlineEnv.sourceLang) eveState.vaultData =
             Except.ok none →
       runTarget offlineEnv eveState =
         some (fallbackFind (jsToLower (jsTrim offlineEnv.sourceText))
           (sourceColFor offlineEnv.sourceLang) eveState.vaultData) ∧
       (fallbackFind (jsToLower (jsTrim offlineEnv.sourceText))
           (sourceColFor offlineEnv.sourceLang) eveState.vaultData ≠ none →
         runTag offlineEnv eveState = some (some Source.fallback)) ∧
       (fallbackFind (jsToLower (jsTrim offlineEnv.sourceText))
           (sourceColFor offlineEnv.sourceLang) eveState.vaultData = none →
         runStatus offlineEnv eveState =
           some (some (fallbackMessage offlineEnv.forceOffline))))) :=
  ⟨⟨by decide, by decide⟩,
   C4_synthesis_gating offlineEnv eveState (by decide) (by decide)⟩

/-- Claim C7 (corrected): when all tiers miss, the reported reason is
decided solely by the manual force-offline toggle — 'Isolated Mode: No
local matches found.' when it is set, 'Offline: No knowledge records.'
otherwise — so the forced-offline case is distinguished, but the case
'online, synthesis attempted and failed' and the case 'physically offline'
share the same message. -/
theorem C7_failure_reason_amended (env : Env) (s : ComponentState)
    (htrim : jsTrim env.sourceText ≠ "")
    (hexact : exactFind (jsToLower (jsTrim env.sourceText))
        (sourceColFor env.sourceLang) s.vaultData = Except.ok none)
    (hattempt : env.isOnline = true → env.forceOffline = false →
        env.synthResult = none)
    (hmiss : fallbackFind (jsToLower (jsTrim env.sourceText))
        (sourceColFor env.sourceLang) s.vaultData = none) :
    runTarget env s = some none ∧
    runStatus env s = some (some (fallbackMessage env.forceOffline)) ∧
    fallbackMessage true ≠ fallbackMessage false := by
  by_cases hlink : (env.isOnline && !env.forceOffline) = true
  · have hon : env.isOnline = true := (Bool.and_eq_true_iff.mp hlink).1
    have hfo : env.forceOffline = false := by
      have h2 := (Bool.and_eq_true_iff.mp hlink).2
      simpa using h2
    have hrun := run_synth_fail env s htrim hexact hon hfo (hattempt hon hfo)
    rw [applyFallback_miss _ _ _ _ (by simpa using hmiss)] at hrun
    refine ⟨?_, ?_, by decide⟩
    · simp [runTarget, runState, hrun]
    · simp [runStatus, runState, hrun]
  · have hlink' : (env.isOnline && !env.forceOffline) = false := by
      simpa using hlink
    have hrun := run_no_link env s htrim hexact hlink'
    rw [applyFallback_miss _ _ _ _ (by simpa using hmiss)] at hrun
    refine ⟨?_, ?_, by decide⟩
    · simp [runTarget, runState, hrun]
    · simp [runStatus, runState, hrun]

/-- Claim C7, counterexample: the run that attempted synthesis online over
an empty cache and the run that skipped tier 2 because the device was
offline report exactly the same reason, 'Offline: No knowledge records.' —
the two cases the claim says are distinguished are not (only the manual
force-offline toggle changes the message). -/
theorem C7_reason_not_distinguishing :
    runStatus synthFailEnv emptyState =
      some (some "Offline: No knowledge records.") ∧
    runStatus offlineEnv emptyState =
      some (some "Offline: No knowledge records.") := by
  constructor <;> decide

/-- Claim C7, witness: the amended reporting at the online
synthesis-failure miss. -/
theorem C7_failure_reason_witness :
    (jsTrim synthFailEnv.sourceText ≠ "" ∧
     (synthFailEnv.isOnline = true → synthFailEnv.forceOffline = false →
       synthFailEnv.synthResult = none) ∧
     fallbackFind (jsToLower (jsTrim synthFailEnv.sourceText))
       (sourceColFor synthFailEnv.sourceLang) emptyState.vaultData = none) ∧
    (runTarget synthFailEnv emptyState = some none ∧
     runStatus synthFailEnv emptyState =
       some (some (fallbackMessage synthFailEnv.forceOffline)) ∧
     fallbackMessage true ≠ fallbackMessage false) :=
  ⟨⟨by decide, by decide, by decide⟩,
   C7_failure_reason_amended synthFailEnv emptyState (by decide) (by decide)
     (by decide) (by decide)⟩

/-- Claim C9 (corrected): the synthesized entry is assigned to the result
state before the upsert is issued, but the upsert is awaited rather than
fire-and-forget: in every authenticated tier-2 success the trace starts
with the synthesis and the result assignments, then the upsert call and its
settling, and only after that — as the very last action — is the in-flight
flag cleared; since the render shows the result panel only once
isTranslating is false, the user-visible response waits for the remote
upsert. -/
theorem C9_response_order_amended (env : Env) (s : ComponentState)
    (le : DictionaryEntry)
    (htrim : jsTrim env.sourceText ≠ "")
    (hexact : exactFind (jsToLower (jsTrim env.sourceText))
        (sourceColFor env.sourceLang) s.vaultData = Except.ok none)
    (hon : env.isOnline = true) (hfo : env.forceOffline = false)
    (hsynth : env.synthResult = some le)
    (hng : isNonGuest env.user = true) :
    ((runTrace env s).getD []).take 6 =
      [Event.markTranslating true,
       Event.synthCall (jsToLower (jsTrim env.sourceText)) env.sourceLang,
       Event.setTarget (some le), Event.setSourceTag (some Source.ai),
       Event.upsertCall (stampEntry env.now le), Event.upsertReturn] ∧
    ((runTrace env s).getD []).getLast? =
      some (Event.markTranslating false) := by
  cases hup : env.upsertResult with
  | resolved row err =>
      cases row with
      | some rr =>
          cases err with
          | false =>
              have hrun := run_upsert_row env s le rr htrim hexact hon hfo hsynth hng hup
              constructor <;> simp [runTrace, hrun]
          | true =>
              have hrun := run_upsert_no_row env s le (some rr) true htrim hexact
                hon hfo hsynth hng hup (Or.inr rfl)
              constructor <;> simp [runTrace, hrun]
      | none =>
          have hrun := run_upsert_no_row env s le none err htrim hexact
            hon hfo hsynth hng hup (Or.inl rfl)
          constructor <;> simp [runTrace, hrun]
  | thrown =>
      have hrun := run_upsert_thrown env s le htrim hexact hon hfo hsynth hng hup
      constructor
      · simp only [runTrace, hrun, Option.getD_some]
        rw [List.append_assoc, List.take_append_of_le_length (by simp)]
        rfl
      · simp only [runTrace, hrun, Option.getD_some]
        rw [List.getLast?_concat]

/-- The trace of the successful authenticated baseEnv run. -/
def authSuccessTrace : List Event :=
  [Event.markTranslating true, Event.synthCall "evening" Language.english,
   Event.setTarget (some entryEvening), Event.setSourceTag (some Source.ai),
   Event.upsertCall (stampEntry "t0" entryEvening), Event.upsertReturn,
   Event.cacheWrite [rowEvening], Event.markTranslating false]

/-- Claim C9, counterexample: in the authenticated success run the upsert
settles strictly before isTranslating is cleared, and the render shows the
result panel only once isTranslating is false — the upsert is awaited on
the path to the user-visible response, contradicting the claim that it is
fire-and-forget and never delays the response. -/
theorem C9_upsert_delays_response :
    runTrace baseEnv emptyState = some authSuccessTrace ∧
    authSuccessTrace.findIdx (fun ev => ev == Event.upsertReturn) <
      authSuccessTrace.findIdx
        (fun ev => ev == Event.markTranslating false) := by
  constructor <;> decide

/-- Claim C9, witness: the amended ordering at the successful authenticated
scenario. -/
theorem C9_response_order_witness :
    (jsTrim baseEnv.sourceText ≠ "" ∧ isNonGuest baseEnv.user = true) ∧
    (((runTrace baseEnv emptyState).getD []).take 6 =
      [Event.markTranslating true,
       Event.synthCall (jsToLower (jsTrim baseEnv.sourceText))
         baseEnv.sourceLang,
       Event.setTarget (some entryEvening),
       Event.setSourceTag (some Source.ai),
       Event.upsertCall (stampEntry baseEnv.now entryEvening),
       Event.upsertReturn] ∧
     ((runTrace baseEnv emptyState).getD []).getLast? =
       some (Event.markTranslating false)) :=
  ⟨⟨by decide, by decide⟩,
   C9_response_order_amended baseEnv emptyState entryEvening (by decide)
     (by decide) rfl rfl rfl (by decide)⟩

end OmutolokiWethu
